import Mathlib

/-!
Verification of the futuresboard quantitative pipeline
(crypto-futures-dashboard, `backend/src/futuresboard/`).

The Python modules `utils.py`, `quant_engine.py`, `db.py` and `app.py` are
shallowly embedded below.  Exact rational arithmetic (`ℚ`) stands in for
Python floats; machine non-finiteness (NaN/inf) cannot arise in the exact
model, so `np.isfinite` masks are identities here.  Real-valued results that
involve square roots (Pearson correlation) live in `ℝ` with decidable
rational guards, mirroring the source's branch structure.
-/

namespace Futuresboard

/-! ## Python string primitives

Models of `str.lower`, `str.upper` and `str.strip` as character-list
operations (the strings involved are plain ASCII labels and symbols, on
which these agree with Python's unicode versions). -/

def pyLower (s : String) : String := String.mk (s.data.map Char.toLower)

def pyUpper (s : String) : String := String.mk (s.data.map Char.toUpper)

def pyStrip (s : String) : String :=
  String.mk (((s.data.dropWhile Char.isWhitespace).reverse.dropWhile Char.isWhitespace).reverse)

/-! ## Numeric helpers (`utils.py`)

`mean` and `pvariance` are the population statistics used by
`numpy`/`statistics` in the source (`statistics.mean`, `statistics.pstdev`,
`np.std`).  `pstdev = sqrt pvariance`, so the source's `std == 0` guards are
expressed as `pvariance = 0`, which is equivalent and stays in `ℚ`. -/

def mean (xs : List ℚ) : ℚ := xs.sum / xs.length

def pvariance (xs : List ℚ) : ℚ :=
  (xs.map (fun x => (x - mean xs) ^ 2)).sum / xs.length

/-- Population covariance of two equal-length series, as used by
`np.corrcoef` (numerator of the Pearson coefficient). -/
def pcovariance (a b : List ℚ) : ℚ :=
  (List.zipWith (fun x y => (x - mean a) * (y - mean b)) a b).sum / a.length

/-- `utils.safe_corrcoef` (utils.py lines 180–193).
Branches in source order: length mismatch or empty input returns `0.0`;
a zero standard deviation on either leg returns `0.0`; otherwise the Pearson
coefficient is computed.  The `np.isfinite` mask filters nothing in the
exact-rational model, so it is omitted.  The zero-variance guard makes the
final division's denominator nonzero, so no division by zero is ever
performed on the path that divides. -/
noncomputable def safe_corrcoef (a b : List ℚ) : ℝ :=
  if a.length ≠ b.length ∨ a = [] then 0
  else if pvariance a = 0 ∨ pvariance b = 0 then 0
  else (pcovariance a b : ℝ) / (Real.sqrt (pvariance a) * Real.sqrt (pvariance b))

/-- A series is constant-valued when all of its entries coincide. -/
def IsConstList (xs : List ℚ) : Prop := ∃ c, ∀ x ∈ xs, x = c

lemma mean_const (c : ℚ) (xs : List ℚ) (hxs : ∀ x ∈ xs, x = c) (hne : xs ≠ []) :
    mean xs = c := by
  have hsum : xs.sum = (xs.length : ℚ) * c := by
    induction xs with
    | nil => simp
    | cons y ys ih =>
      have hy : y = c := hxs y (by simp)
      have hys : ∀ x ∈ ys, x = c := fun x hx => hxs x (by simp [hx])
      by_cases h : ys = []
      · simp [h, hy]
      · have := ih hys h
        simp [List.sum_cons, this, hy]
        ring
  have hlen : (xs.length : ℚ) ≠ 0 := by
    have h0 : xs.length ≠ 0 := fun h => hne (List.length_eq_zero.mp h)
    exact_mod_cast h0
  simp [mean, hsum]
  field_simp

lemma pvariance_const (xs : List ℚ) (h : IsConstList xs) : pvariance xs = 0 := by
  obtain ⟨c, hc⟩ := h
  by_cases hne : xs = []
  · simp [pvariance, hne]
  · have hm : mean xs = c := mean_const c xs hc hne
    have : (xs.map (fun x => (x - mean xs) ^ 2)).sum = 0 := by
      apply List.sum_eq_zero
      intro y hy
      obtain ⟨x, hx, rfl⟩ := List.mem_map.mp hy
      simp [hm, hc x hx]
    simp [pvariance, this]

/-! ## Composite z-score (`quant_engine._process_symbol_sync`, lines 328–341)

The four component z-scores (`z_oi_latest`, `z_top_acc_latest`, `z_obi`,
`z_funding`) are each `Option ℚ`; the source appends each non-null one to a
`components` list (value, weight) and its weight to a parallel `weights`
list, then divides the weighted sum by the weight sum when the list is
nonempty and the weight sum positive. -/

def zscComposite (z_oi_latest z_top_acc_latest z_obi z_funding : Option ℚ) : Option ℚ :=
  let components : List (ℚ × ℚ) :=
    (match z_oi_latest with | some z => [(z, 0.4)] | none => []) ++
    (match z_top_acc_latest with | some z => [(z, 0.2)] | none => []) ++
    (match z_obi with | some z => [(z, 0.2)] | none => []) ++
    (match z_funding with | some z => [(z, 0.2)] | none => [])
  let weights : List ℚ := components.map (fun p => p.2)
  if components ≠ [] ∧ weights.sum > 0 then
    some ((components.map (fun p => p.1 * p.2)).sum / weights.sum)
  else none

/-- Written from the claim's words, to be compared against `zscComposite`:
the weighted mean of exactly the non-null components (open interest 0.4,
top-trader ratio 0.2, order-book imbalance 0.2, funding 0.2), divided by
the sum of the weights of those non-null components. -/
def compositeSpec (z_oi_latest z_top_acc_latest z_obi z_funding : Option ℚ) : Option ℚ :=
  let present : List (ℚ × ℚ) :=
    ([(z_oi_latest, 0.4), (z_top_acc_latest, 0.2), (z_obi, 0.2), (z_funding, 0.2)]
      : List (Option ℚ × ℚ)).filterMap (fun p => p.1.map (fun z => (z, p.2)))
  if present = [] then none
  else some ((present.map (fun p => p.1 * p.2)).sum / (present.map (fun p => p.2)).sum)

/-! ## Family weights and signal confidence (`quant_engine.py` lines 29–35
and 439–446)

`FAMILY_WEIGHTS` in the source is a dict with five entries — the key
`distribution` is absent — and the aggregation reads weights through
`FAMILY_WEIGHTS.get(k, 1.0)`, so the missing family defaults to weight 1. -/

def FAMILY_WEIGHTS : List (String × ℚ) :=
  [("accumulation", 1.0), ("momentum", 1.0), ("exhaustion", 0.8),
   ("orderflow", 1.0), ("divergence", 0.9)]

def familyWeight (k : String) : ℚ := (FAMILY_WEIGHTS.lookup k).getD 1.0

/-- The six boolean family flags built at `quant_engine.py` lines 431–438
(`family_flags` dict, in insertion order). -/
structure FamilyFlags where
  accumulation : Bool
  distribution : Bool
  momentum : Bool
  exhaustion : Bool
  orderflow : Bool
  divergence : Bool

def familyFlagsList (f : FamilyFlags) : List (String × Bool) :=
  [("accumulation", f.accumulation), ("distribution", f.distribution),
   ("momentum", f.momentum), ("exhaustion", f.exhaustion),
   ("orderflow", f.orderflow), ("divergence", f.divergence)]

/-- `confidence` as accumulated at `quant_engine.py` lines 439–446:
one pass over `family_flags` adds every weight to the denominator and the
weights of satisfied families to the numerator. -/
def signalConfidence (f : FamilyFlags) : ℚ :=
  let score_denom := (familyFlagsList f).foldl (fun acc kv => acc + familyWeight kv.1) 0
  let score_numer :=
    (familyFlagsList f).foldl (fun acc kv => acc + if kv.2 then familyWeight kv.1 else 0) 0
  if score_denom > 0 then score_numer / score_denom else 0

/-- Written from the claim's words: sum of the weights of the satisfied
families (accumulation 1.0, momentum 1.0, orderflow 1.0, divergence 0.9,
exhaustion 0.8, distribution 1.0) divided by the sum of all six weights. -/
def confidenceSpec (f : FamilyFlags) : ℚ :=
  ((if f.accumulation then (1 : ℚ) else 0) + (if f.momentum then 1 else 0) +
   (if f.orderflow then 1 else 0) + (if f.divergence then 0.9 else 0) +
   (if f.exhaustion then 0.8 else 0) + (if f.distribution then 1 else 0)) /
  (1 + 1 + 1 + 0.9 + 0.8 + 1)

/-! ## Regime classification (`quant_engine.regime_loop`, lines 849–872)

Per confluence row the source reads `c = confluence_score or 0` and
`v = volatility or 0`, then classifies through an if/elif chain; the pair
`(regime, confidence)` depends on nothing but `(c, v)`. -/

def classifyRegime (c v : ℚ) : String × ℚ :=
  if c > 0.15 ∧ v < 0.025 then ("accumulation", c)
  else if c > 0.15 ∧ v ≥ 0.025 then ("expansion", c)
  else if c < -0.15 ∧ v < 0.025 then ("distribution", |c|)
  else if c < -0.15 ∧ v ≥ 0.025 then ("exhaustion", |c|)
  else ("neutral", 0.1)

/-! ## Context scoring (`quant_engine.context_scoring_loop`, lines 919–940) -/

/-- Python's substring containment `t in s`. -/
def py_in (t s : String) : Bool := decide (t.data <:+: s.data)

/-- The regime-boost chain at `quant_engine.py` lines 925–932: substring
tests in source order over the lowercased regime string. -/
def regime_boost (regime : String) : ℚ :=
  if py_in "expansion" regime then 1.15
  else if py_in "distribution" regime then 0.9
  else if py_in "accumulation" regime then 1.05
  else 1.0

/-- One row of `context_scoring_loop` (lines 920–940): the regime string
defaults to neutral when null and is lowercased; the blended score is
clamped to `[0, 1]`; the bias label follows the 0.65/0.35 thresholds.
Returns `(context_score, bias)`. -/
def contextScoreBias (signal_conf conf_score : ℚ) (regime : Option String) : ℚ × String :=
  let r := pyLower (regime.getD "neutral")
  let boost := regime_boost r
  let score := max 0 (min ((0.6 * signal_conf + 0.4 * conf_score) * boost) 1)
  let bias := if score > 0.65 then "bullish" else if score < 0.35 then "bearish" else "neutral"
  (score, bias)

/-- The five regime labels `regime_loop` can produce, used to state the
claim's per-regime boost table. -/
inductive Regime
  | accumulation
  | expansion
  | distribution
  | exhaustion
  | neutral
deriving DecidableEq

def Regime.label : Regime → String
  | .accumulation => "accumulation"
  | .expansion => "expansion"
  | .distribution => "distribution"
  | .exhaustion => "exhaustion"
  | .neutral => "neutral"

/-- The claim's boost table: 1.15 for expansion, 1.05 for accumulation,
0.9 for distribution, 1.0 otherwise. -/
def boostSpec : Regime → ℚ
  | .expansion => 1.15
  | .accumulation => 1.05
  | .distribution => 0.9
  | _ => 1.0

/-! ## Context trends monitor (`quant_engine.context_trends_loop`, lines
964–998)

The loop keeps one `prev_biases` map from symbol to last-seen bias.  Per
evaluation of one symbol it normalizes the fetched bias
(`(r["bias"] or "neutral").lower()`), records a transition exactly when a
previous bias exists and differs, and then stores the current bias.  The
per-symbol behaviour is a fold over that symbol's successive evaluations. -/

def normBias (bias : Option String) : String := pyLower (bias.getD "neutral")

/-- The emission test at lines 981–990: `if prev_bias and prev_bias != curr_bias`. -/
def trendsEmit (prev : Option String) (curr : String) : Option (String × String) :=
  match prev with
  | some p => if p ≠ curr then some (p, curr) else none
  | none => none

/-- One evaluation of one symbol: the optional transition recorded, and the
new last-seen bias (line 991: `prev_biases[sym] = curr_bias`). -/
def trendsStep (prev : Option String) (bias : Option String) :
    Option (String × String) × Option String :=
  let curr := normBias bias
  (trendsEmit prev curr, some curr)

/-- The per-evaluation emissions over a sequence of observed biases for one
symbol, starting from last-seen state `prev` (initially `none`: the map has
no entry for a never-seen symbol). -/
def trendsRun : Option String → List (Option String) → List (Option (String × String))
  | _, [] => []
  | prev, b :: bs =>
    let step := trendsStep prev b
    step.1 :: trendsRun step.2 bs

/-- All transitions recorded across a sequence of evaluations of one symbol
first observed at the sequence's start. -/
def trendsTransitions (bs : List (Option String)) : List (String × String) :=
  (trendsRun none bs).filterMap id

/-! ## Metrics persistence (`db.py`)

`INSERT_SQL` (db.py lines 170–173) is a plain
`INSERT INTO metrics (…) VALUES (…)` — it carries no `ON CONFLICT` clause,
and the `metrics` table (lines 211–260) has a surrogate `BIGSERIAL` primary
key and only the non-unique index `metrics_symbol_tf_idx` over
`(symbol, timeframe, updated_at)`.  Every executed insert therefore appends
a row.  The row-identity columns are `symbol`, `timeframe` and the
`updated_at` timestamp stamped at prepare time (line 562); the remaining
forty-odd numeric/JSON columns never influence how many rows a key has, and
are represented here by the price column plus an opaque payload. -/

structure MetricsRow where
  symbol : String
  timeframe : String
  price : Option ℚ
  updated_at : Nat
deriving DecidableEq

structure MetricInput where
  /-- `m.get("symbol") or m.get("sym") or ""` resolved. -/
  symbol : String
  price : Option ℚ
deriving DecidableEq

/-- Row preparation in `save_metrics_v3_async` (db.py lines 548–615): strip
the symbol, skip the input when it is blank, otherwise build one `values`
row stamped with the shared `updated_at`. -/
def prepareRow (timeframe : String) (now : Nat) (m : MetricInput) : Option MetricsRow :=
  let symbol := pyStrip m.symbol
  if symbol = "" then none
  else some { symbol := symbol, timeframe := timeframe, price := m.price, updated_at := now }

/-- `db.save_metrics_v3_async` under a persistence engine that accepts every
row (db.py lines 535–637): all prepared `values` rows are inserted through
`INSERT_SQL`, whether by the `executemany` batches or the row-by-row
fallback, and each insert appends.  The resulting table state is the
previous rows followed by the prepared rows. -/
def save_metrics_v3 (store : List MetricsRow) (metrics : List MetricInput)
    (timeframe : String) (now : Nat) : List MetricsRow :=
  store ++ metrics.filterMap (prepareRow timeframe now)

/-- How many rows of the store carry a given (symbol, timeframe, timestamp)
key. -/
def countKey (store : List MetricsRow) (sym tf : String) (ts : Nat) : Nat :=
  (store.filter (fun r => decide (r.symbol = sym ∧ r.timeframe = tf ∧ r.updated_at = ts))).length

/-! ## Batch insert with row-by-row fallback inside one transaction
(db.py lines 622–637)

The write loop walks the prepared `values` in chunks of `DB_INSERT_BATCH`,
and the whole loop sits inside a single `async with conn.transaction():`
block (db.py line 624).  db.py hard-codes asyncpg/PostgreSQL, whose
transaction semantics govern the error path: a statement the server rejects
(the canonical bad row — constraint violation, type overflow) puts the
transaction into the aborted state; every later statement of the same
transaction fails at once with "current transaction is aborted"; and the
COMMIT the context manager issues on an aborted transaction rolls it back.
`ok` abstracts which individual rows the server accepts.  A transaction
state is the rows pending commit plus the aborted flag. -/

structure TxState where
  pending : List MetricsRow
  aborted : Bool
deriving DecidableEq

/-- `conn.executemany(INSERT_SQL, chunk)` inside the transaction (db.py
line 628): in an aborted transaction it raises at once; otherwise it
succeeds — adding the chunk to the pending rows — exactly when the server
accepts every row, and raises, aborting the transaction, when it rejects
one.  Returns the new state and whether the call raised. -/
def tx_executemany (ok : MetricsRow → Bool) (st : TxState) (chunk : List MetricsRow) :
    TxState × Bool :=
  if st.aborted then (st, true)
  else if chunk.all ok then ({ st with pending := st.pending ++ chunk }, false)
  else ({ st with aborted := true }, true)

/-- `conn.execute(INSERT_SQL, *row)` inside the transaction (db.py
line 634), with the same abort semantics per single row. -/
def tx_execute (ok : MetricsRow → Bool) (st : TxState) (row : MetricsRow) :
    TxState × Bool :=
  if st.aborted then (st, true)
  else if ok row then ({ st with pending := st.pending ++ [row] }, false)
  else ({ st with aborted := true }, true)

/-- One chunk of the write loop (db.py lines 625–636): try the batch; when
it raises, retry row by row, each retry's failure swallowed by its own
try/except. -/
def txInsertChunk (ok : MetricsRow → Bool) (st : TxState) (chunk : List MetricsRow) :
    TxState :=
  let batch := tx_executemany ok st chunk
  if batch.2 then chunk.foldl (fun s row => (tx_execute ok s row).1) batch.1
  else batch.1

/-- The write phase of `save_metrics_v3_async`: the chunk loop inside
`conn.transaction()`.  No exception escapes the loop body, so on exit the
context manager commits — which persists the pending rows when the
transaction is healthy and rolls everything back when it is aborted. -/
def save_metrics_tx (ok : MetricsRow → Bool) (store : List MetricsRow)
    (chunks : List (List MetricsRow)) : List MetricsRow :=
  let final := chunks.foldl (txInsertChunk ok) { pending := [], aborted := false }
  if final.aborted then store else store ++ final.pending

/-! ## Ingestion queue (`app.py` lines 229–233 and 362–380)

`queue` is an `asyncio.Queue` with a positive `maxsize` (default 20000).
`put_nowait` raises `QueueFull` when a bounded queue already holds
`maxsize` items; `on_message_callback` catches it, logs a warning and drops
the payload.  Python's `or` between the candidate fields treats falsy
values (empty string, zero) as missing, which `pyOrS`/`pyOrQ` mirror. -/

def pyOrS : Option String → Option String → Option String
  | some x, y => if x = "" then y else some x
  | none, y => y

def pyOrQ : Option ℚ → Option ℚ → Option ℚ
  | some x, y => if x = 0 then y else some x
  | none, y => y

/-- The fields of an incoming WS payload that `on_message_callback` reads. -/
structure WsPayload where
  symbol : Option String
  sym : Option String
  s : Option String
  last : Option ℚ
  c : Option ℚ
  p : Option ℚ
  price : Option ℚ
  openInterest : Option ℚ
  oi : Option ℚ
deriving DecidableEq

/-- The normalized record enqueued for `db_writer` (the `raw` field keeps
the original payload). -/
structure WsRecord where
  symbol : String
  price : Option ℚ
  openInterest : Option ℚ
  raw : WsPayload
deriving DecidableEq

/-- The record built at app.py lines 368–374. -/
def normalizeMessage (payload : WsPayload) : WsRecord :=
  { symbol := pyUpper ((pyOrS (pyOrS payload.symbol payload.sym) payload.s).getD "")
  , price := pyOrQ (pyOrQ (pyOrQ payload.last payload.c) payload.p) payload.price
  , openInterest := pyOrQ payload.openInterest payload.oi
  , raw := payload }

structure BoundedQueue (α : Type) where
  maxsize : Nat
  items : List α

/-- `asyncio.Queue.put_nowait`: a queue with positive `maxsize` holding at
least `maxsize` items raises `QueueFull` (`Except.error`); otherwise the
item is enqueued. -/
def put_nowait {α : Type} (q : BoundedQueue α) (x : α) : Except Unit (BoundedQueue α) :=
  if 0 < q.maxsize ∧ q.maxsize ≤ q.items.length then Except.error ()
  else Except.ok { q with items := q.items ++ [x] }

/-- `app.on_message_callback` (app.py lines 362–380): normalize, then
`put_nowait`; `QueueFull` is caught and the payload dropped with a warning.
The function is total — it returns the resulting queue and whether the drop
warning was logged; no exception reaches the caller. -/
def on_message_callback (q : BoundedQueue WsRecord) (payload : WsPayload) :
    BoundedQueue WsRecord × Bool :=
  match put_nowait q (normalizeMessage payload) with
  | Except.ok q2 => (q2, false)
  | Except.error _ => (q, true)

/-! ## Concrete inputs reused by witnesses and counterexamples -/

/-- A sample metric input reused by the persistence theorems. -/
def btcInput : MetricInput := { symbol := "BTCUSDT", price := some 100 }

/-- An all-null WS payload reused by the queue witness. -/
def wsPayload0 : WsPayload :=
  { symbol := none, sym := none, s := none, last := none, c := none, p := none
  , price := none, openInterest := none, oi := none }

/-- Rows reused by the batch-write theorems: one acceptable row and one
row the server rejects (blank symbol, standing for a constraint violation)
sharing a batch. -/
def goodRow : MetricsRow := { symbol := "BTCUSDT", timeframe := "1m", price := none, updated_at := 0 }

def badRow : MetricsRow := { symbol := "", timeframe := "1m", price := none, updated_at := 0 }

/-- A server acceptance predicate for the batch-write theorems: rows with a
nonempty symbol are accepted. -/
def okNonblank (r : MetricsRow) : Bool := decide (r.symbol ≠ "")

/-! ## Helper lemmas -/

lemma trendsRun_length (prev : Option String) (bs : List (Option String)) :
    (trendsRun prev bs).length = bs.length := by
  induction bs generalizing prev with
  | nil => rfl
  | cons b bs ih => simp [trendsRun, ih]

lemma trendsRun_get_succ (prev : Option String) (bs : List (Option String)) (i : ℕ)
    (h : i + 1 < bs.length) (h2 : i + 1 < (trendsRun prev bs).length) :
    (trendsRun prev bs).get ⟨i + 1, h2⟩
      = trendsEmit (some (normBias (bs.get ⟨i, Nat.lt_of_succ_lt h⟩)))
          (normBias (bs.get ⟨i + 1, h⟩)) := by
  induction bs generalizing prev i with
  | nil => simp at h
  | cons b bs ih =>
    cases i with
    | zero =>
      cases bs with
      | nil => simp at h
      | cons b2 bs2 => simp [trendsRun, trendsStep]
    | succ j =>
      have hj : j + 1 < bs.length := by simpa using Nat.lt_of_succ_lt_succ h
      have hj2 : j + 1 < (trendsRun (some (normBias b)) bs).length := by
        rw [trendsRun_length]; exact hj
      simpa [trendsRun, trendsStep] using ih (some (normBias b)) j hj hj2

/-! ## Claim theorems -/

/-- C6: for the diagnostics correlation, a constant-valued leg, mismatched
lengths, or an empty leg yields exactly 0 — the function is total, so no
NaN, infinity, division by zero or exception arises; the one division in
`safe_corrcoef` sits behind the zero-variance guard. -/
theorem C6_safe_corrcoef_degenerate (a b : List ℚ)
    (h : a.length ≠ b.length ∨ a = [] ∨ IsConstList a ∨ IsConstList b) :
    safe_corrcoef a b = 0 := by
  unfold safe_corrcoef
  rcases h with h | h | h | h
  · rw [if_pos (Or.inl h)]
  · rw [if_pos (Or.inr h)]
  · by_cases h1 : a.length ≠ b.length ∨ a = []
    · rw [if_pos h1]
    · rw [if_neg h1, if_pos (Or.inl (pvariance_const a h))]
  · by_cases h1 : a.length ≠ b.length ∨ a = []
    · rw [if_pos h1]
    · rw [if_neg h1, if_pos (Or.inr (pvariance_const b h))]

/-- Witness for C6 at the constant leg `[1, 1, 1]` against `[1, 2, 3]`. -/
theorem C6_safe_corrcoef_degenerate_witness :
    safe_corrcoef [1, 1, 1] [1, 2, 3] = 0 :=
  C6_safe_corrcoef_degenerate [1, 1, 1] [1, 2, 3]
    (Or.inr (Or.inr (Or.inl ⟨1, by decide⟩)))

/-- C10: the first evaluation in which a symbol ever appears (no prior bias
recorded, state `none`) never records a ContextTransition, whatever the
current bias is; the monitor only records the current bias as the last-seen
state, from which later evaluations can emit. -/
theorem C10_first_observation_no_transition (bias : Option String)
    (bs : List (Option String)) :
    trendsStep none bias = (none, some (normBias bias)) ∧
    trendsRun none (bias :: bs) = none :: trendsRun (some (normBias bias)) bs :=
  ⟨rfl, rfl⟩

/-- C3: from the second evaluation on, a transition is recorded exactly when
the bias label differs from the previous evaluation's label; and the bias
sequence neutral, neutral, bullish, bullish, bearish produces exactly the
two transitions neutral→bullish and bullish→bearish. -/
theorem C3_context_transitions :
    (∀ (bs : List (Option String)) (i : ℕ) (h : i + 1 < bs.length)
        (h2 : i + 1 < (trendsRun none bs).length),
      ((trendsRun none bs).get ⟨i + 1, h2⟩ ≠ none
        ↔ normBias (bs.get ⟨i + 1, h⟩) ≠ normBias (bs.get ⟨i, Nat.lt_of_succ_lt h⟩)))
    ∧ trendsTransitions [some "neutral", some "neutral", some "bullish",
        some "bullish", some "bearish"]
      = [("neutral", "bullish"), ("bullish", "bearish")] := by
  constructor
  · intro bs i h h2
    have hemit : ∀ p q : String, trendsEmit (some p) q = if p ≠ q then some (p, q) else none :=
      fun p q => rfl
    rw [trendsRun_get_succ none bs i h h2, hemit]
    rcases eq_or_ne (normBias (bs.get ⟨i, Nat.lt_of_succ_lt h⟩))
        (normBias (bs.get ⟨i + 1, h⟩)) with he | he
    · rw [if_neg (fun hc => hc he)]
      simp only [ne_eq, not_true_eq_false, false_iff, not_not]
      exact he.symm
    · rw [if_pos he]
      constructor
      · intro _ hc
        exact he (Eq.symm hc)
      · intro _
        exact Option.some_ne_none _
  · decide

/-- Witness for C3 at the two-element sequence neutral, bullish: the second
evaluation emits a transition, as the labels differ. -/
theorem C3_context_transitions_witness :
    (trendsRun none [some "neutral", some "bullish"]).get ⟨1, by decide⟩ ≠ none
      ↔ normBias (([some "neutral", some "bullish"] : List (Option String)).get ⟨1, by decide⟩)
          ≠ normBias (([some "neutral", some "bullish"] : List (Option String)).get
              ⟨0, by decide⟩) :=
  C3_context_transitions.1 [some "neutral", some "bullish"] 0 (by decide) (by decide)

/-- C1 counterexample: two writes of the same input under the same
timeframe and timestamp leave two rows for the key
(BTCUSDT, 1m, 0) in the metrics store — not exactly one, refuting
merge-replace at this concrete input. -/
theorem C1_counterexample :
    countKey (save_metrics_v3 (save_metrics_v3 [] [btcInput] "1m" 0) [btcInput] "1m" 0)
        "BTCUSDT" "1m" 0 = 2
    ∧ countKey (save_metrics_v3 (save_metrics_v3 [] [btcInput] "1m" 0) [btcInput] "1m" 0)
        "BTCUSDT" "1m" 0 ≠ 1 := by
  constructor
  · decide
  · decide

/-- C1 amended: `save_metrics_v3_async` appends — after a write, the rows
previously stored under a (symbol, timeframe, timestamp) key all remain and
every prepared input row adds to the key's count; uniqueness is never
enforced (plain `INSERT`, no `ON CONFLICT`). -/
theorem C1_metrics_write_appends (store : List MetricsRow) (metrics : List MetricInput)
    (timeframe : String) (now : Nat) (sym tf : String) (ts : Nat) :
    countKey (save_metrics_v3 store metrics timeframe now) sym tf ts
      = countKey store sym tf ts
        + countKey (metrics.filterMap (prepareRow timeframe now)) sym tf ts := by
  unfold countKey save_metrics_v3
  rw [List.filter_append, List.length_append]

/-- C5 counterexample: at confluence 0 and volatility 0 the code returns
regime neutral with confidence 0.1, while the magnitude of the confluence
score is 0 — confidence does not equal the magnitude. -/
theorem C5_counterexample :
    classifyRegime 0 0 = ("neutral", 0.1) ∧ (classifyRegime 0 0).2 ≠ |(0 : ℚ)| := by
  constructor
  · norm_num [classifyRegime]
  · norm_num [classifyRegime]

/-- C5 amended: regime classification is the pure function `classifyRegime`
of (confluence, volatility) — identical inputs give identical outputs by
construction — and the produced confidence equals the magnitude of the
confluence score whenever the produced regime is not neutral, while the
neutral branch returns the constant confidence 0.1. -/
theorem C5_regime_confidence (c v : ℚ) :
    ((classifyRegime c v).1 = "neutral" ∧ (classifyRegime c v).2 = 0.1)
    ∨ ((classifyRegime c v).1 ≠ "neutral" ∧ (classifyRegime c v).2 = |c|) := by
  unfold classifyRegime
  split_ifs with h1 h2 h3 h4
  · right
    refine ⟨show "accumulation" ≠ "neutral" by decide, ?_⟩
    have hc : 0 < c := lt_trans (by norm_num) h1.1
    exact (abs_of_pos hc).symm
  · right
    refine ⟨show "expansion" ≠ "neutral" by decide, ?_⟩
    have hc : 0 < c := lt_trans (by norm_num) h2.1
    exact (abs_of_pos hc).symm
  · exact Or.inr ⟨show "distribution" ≠ "neutral" by decide, rfl⟩
  · exact Or.inr ⟨show "exhaustion" ≠ "neutral" by decide, rfl⟩
  · exact Or.inl ⟨rfl, rfl⟩

/-- C7: when the bounded ingestion queue is at capacity, the producer-side
callback neither blocks nor raises: `QueueFull` is caught inside
`on_message_callback` (which is total and returns normally), the new item
is dropped, the drop warning is logged, and the queue contents are
unchanged. -/
theorem C7_queue_backpressure (q : BoundedQueue WsRecord) (payload : WsPayload)
    (hpos : 0 < q.maxsize) (hfull : q.maxsize ≤ q.items.length) :
    on_message_callback q payload = (q, true) := by
  unfold on_message_callback put_nowait
  rw [if_pos ⟨hpos, hfull⟩]

/-- Witness for C7: a capacity-1 queue already holding one record drops the
next payload and stays unchanged. -/
theorem C7_queue_backpressure_witness :
    on_message_callback ⟨1, [normalizeMessage wsPayload0]⟩ wsPayload0
      = (⟨1, [normalizeMessage wsPayload0]⟩, true) :=
  C7_queue_backpressure ⟨1, [normalizeMessage wsPayload0]⟩ wsPayload0
    (by decide) (by decide)

lemma tx_execute_aborted (ok : MetricsRow → Bool) (st : TxState) (row : MetricsRow)
    (h : st.aborted = true) : tx_execute ok st row = (st, true) := by
  simp [tx_execute, h]

lemma tx_fallback_aborted (ok : MetricsRow → Bool) (chunk : List MetricsRow) :
    ∀ st : TxState, st.aborted = true →
      chunk.foldl (fun s row => (tx_execute ok s row).1) st = st := by
  induction chunk with
  | nil =>
    intro st _
    rfl
  | cons r rs ih =>
    intro st h
    rw [List.foldl_cons, tx_execute_aborted ok st r h]
    exact ih st h

lemma txInsertChunk_aborted (ok : MetricsRow → Bool) (st : TxState)
    (chunk : List MetricsRow) (h : st.aborted = true) :
    txInsertChunk ok st chunk = st := by
  unfold txInsertChunk tx_executemany
  rw [if_pos h]
  simpa using tx_fallback_aborted ok chunk st h

lemma txInsertChunk_bad (ok : MetricsRow → Bool) (st : TxState)
    (chunk : List MetricsRow) (hst : st.aborted = false) (r : MetricsRow)
    (hr : r ∈ chunk) (hbad : ok r = false) :
    txInsertChunk ok st chunk = { st with aborted := true } := by
  have hall : ¬ chunk.all ok = true := by
    intro hc
    have := List.all_eq_true.mp hc r hr
    rw [hbad] at this
    exact Bool.false_ne_true this
  have hexec : tx_executemany ok st chunk = ({ st with aborted := true }, true) := by
    unfold tx_executemany
    rw [if_neg (by simp [hst]), if_neg hall]
  simp only [txInsertChunk, hexec]
  simpa using tx_fallback_aborted ok chunk { st with aborted := true } rfl

lemma txFold_aborted (ok : MetricsRow → Bool) (chunks : List (List MetricsRow)) :
    ∀ st : TxState, st.aborted = true →
      chunks.foldl (txInsertChunk ok) st = st := by
  induction chunks with
  | nil =>
    intro st _
    rfl
  | cons c cs ih =>
    intro st h
    rw [List.foldl_cons, txInsertChunk_aborted ok st c h]
    exact ih st h

lemma txFold_bad (ok : MetricsRow → Bool) (chunks : List (List MetricsRow))
    (c : List MetricsRow) (r : MetricsRow) (hc : c ∈ chunks) (hr : r ∈ c)
    (hbad : ok r = false) :
    ∀ st : TxState, (chunks.foldl (txInsertChunk ok) st).aborted = true := by
  induction chunks with
  | nil => simp at hc
  | cons c2 cs ih =>
    intro st
    rw [List.foldl_cons]
    rcases List.mem_cons.mp hc with rfl | hc2
    · cases hst : st.aborted with
      | false =>
        rw [txInsertChunk_bad ok st c hst r hr hbad,
          txFold_aborted ok cs { st with aborted := true } rfl]
      | true =>
        rw [txInsertChunk_aborted ok st c hst, txFold_aborted ok cs st hst]
        exact hst
    · exact ih hc2 _

/-- C8 (code bug): the control flow of db.py lines 622–637 does try the
chunk as one `executemany` batch and, on its failure, does retry every row
with its own `conn.execute` — but both run inside the single transaction
opened at line 624, which a server-rejected row aborts.  Every fallback
retry then fails (each failure swallowed), and the commit on exit rolls the
aborted transaction back, so one bad row voids not just its batch but the
entire call: at the concrete failing input, the batch `[goodRow, badRow]`
persists nothing — the accepted `goodRow` included — while the same write
without `badRow` persists `goodRow`; in general any rejected row anywhere
leaves the store unchanged. -/
theorem C8_one_bad_row_voids_batch :
    save_metrics_tx okNonblank [] [[goodRow, badRow]] = []
    ∧ goodRow ∉ save_metrics_tx okNonblank [] [[goodRow, badRow]]
    ∧ save_metrics_tx okNonblank [] [[goodRow]] = [goodRow]
    ∧ ∀ (ok : MetricsRow → Bool) (store : List MetricsRow)
        (chunks : List (List MetricsRow)) (c : List MetricsRow) (r : MetricsRow),
        c ∈ chunks → r ∈ c → ok r = false →
          save_metrics_tx ok store chunks = store := by
  refine ⟨by decide, by decide, by decide, ?_⟩
  intro ok store chunks c r hc hr hbad
  simp only [save_metrics_tx]
  rw [if_pos (txFold_bad ok chunks c r hc hr hbad { pending := [], aborted := false })]

/-- C2: the composite z-score equals the renormalized weighted mean of
exactly the non-null components (weights 0.4/0.2/0.2/0.2), and it is null
precisely when all four components are null — a missing component is
dropped from numerator and denominator alike, never treated as zero. -/
theorem C2_composite_zscore (z_oi z_top z_obi z_fund : Option ℚ) :
    zscComposite z_oi z_top z_obi z_fund = compositeSpec z_oi z_top z_obi z_fund
    ∧ (zscComposite z_oi z_top z_obi z_fund = none
        ↔ (z_oi = none ∧ z_top = none ∧ z_obi = none ∧ z_fund = none)) := by
  rcases z_oi with _ | x <;> rcases z_top with _ | y <;> rcases z_obi with _ | z <;>
    rcases z_fund with _ | w <;>
      constructor <;>
        norm_num [zscComposite, compositeSpec, List.filterMap_cons, List.filterMap_nil] <;>
        simp

lemma familyWeight_accumulation : familyWeight "accumulation" = 1.0 := rfl

lemma familyWeight_distribution : familyWeight "distribution" = 1.0 := rfl

lemma familyWeight_momentum : familyWeight "momentum" = 1.0 := rfl

lemma familyWeight_exhaustion : familyWeight "exhaustion" = 0.8 := rfl

lemma familyWeight_orderflow : familyWeight "orderflow" = 1.0 := rfl

lemma familyWeight_divergence : familyWeight "divergence" = 0.9 := rfl

/-- C9: the reported signal confidence is the sum of the weights of the
satisfied families over the sum of all six family weights — with the
distribution family's weight resolved to the default 1.0, since the key is
absent from `FAMILY_WEIGHTS` and read through `.get(k, 1.0)` — so it is 0
with no family satisfied and 1 with all six satisfied. -/
theorem C9_signal_confidence :
    (∀ f : FamilyFlags, signalConfidence f = confidenceSpec f)
    ∧ signalConfidence ⟨false, false, false, false, false, false⟩ = 0
    ∧ signalConfidence ⟨true, true, true, true, true, true⟩ = 1 := by
  have hw : ∀ f : FamilyFlags, signalConfidence f = confidenceSpec f := by
    intro f
    obtain ⟨a, b, c, d, e, g⟩ := f
    cases a <;> cases b <;> cases c <;> cases d <;> cases e <;> cases g <;>
      norm_num [signalConfidence, confidenceSpec, familyFlagsList,
        familyWeight_accumulation, familyWeight_distribution, familyWeight_momentum,
        familyWeight_exhaustion, familyWeight_orderflow, familyWeight_divergence]
  refine ⟨hw, ?_, ?_⟩
  · rw [hw]
    norm_num [confidenceSpec]
  · rw [hw]
    norm_num [confidenceSpec]

lemma regime_boost_label (r : Regime) : regime_boost (pyLower r.label) = boostSpec r := by
  cases r <;> rfl

/-- C4: for each regime label the code can produce, the context score is
the blend 0.6·confidence + 0.4·confluence times the claim's boost table
(expansion 1.15, accumulation 1.05, distribution 0.9, otherwise 1.0),
clamped to [0, 1]; the bias is bullish exactly above 0.65, bearish exactly
below 0.35, and neutral exactly in between. -/
theorem C4_context_score_bias (c s : ℚ) (r : Regime) :
    (contextScoreBias c s (some r.label)).1
      = max 0 (min ((0.6 * c + 0.4 * s) * boostSpec r) 1)
    ∧ ((contextScoreBias c s (some r.label)).2 = "bullish"
        ↔ 0.65 < (contextScoreBias c s (some r.label)).1)
    ∧ ((contextScoreBias c s (some r.label)).2 = "bearish"
        ↔ (contextScoreBias c s (some r.label)).1 < 0.35)
    ∧ ((contextScoreBias c s (some r.label)).2 = "neutral"
        ↔ (0.35 ≤ (contextScoreBias c s (some r.label)).1
            ∧ (contextScoreBias c s (some r.label)).1 ≤ 0.65)) := by
  have hpair : contextScoreBias c s (some r.label)
      = (max 0 (min ((0.6 * c + 0.4 * s) * boostSpec r) 1),
         if 0.65 < max 0 (min ((0.6 * c + 0.4 * s) * boostSpec r) 1) then "bullish"
         else if max 0 (min ((0.6 * c + 0.4 * s) * boostSpec r) 1) < 0.35 then "bearish"
         else "neutral") := by
    simp only [contextScoreBias, Option.getD_some, regime_boost_label]
  rw [hpair]
  set t := max 0 (min ((0.6 * c + 0.4 * s) * boostSpec r) 1) with ht
  refine ⟨rfl, ?_, ?_, ?_⟩
  · show (if 0.65 < t then "bullish" else if t < 0.35 then "bearish" else "neutral")
        = "bullish" ↔ 0.65 < t
    split_ifs with h1 h2
    · simp [h1]
    · constructor
      · intro hb
        exact absurd hb (by decide)
      · intro hgt
        exact absurd hgt h1
    · constructor
      · intro hb
        exact absurd hb (by decide)
      · intro hgt
        exact absurd hgt h1
  · show (if 0.65 < t then "bullish" else if t < 0.35 then "bearish" else "neutral")
        = "bearish" ↔ t < 0.35
    split_ifs with h1 h2
    · constructor
      · intro hb
        exact absurd hb (by decide)
      · intro hlt
        exact absurd hlt (by intro hc; exact absurd h1 (by linarith))
    · simp [h2]
    · constructor
      · intro hb
        exact absurd hb (by decide)
      · intro hlt
        exact absurd hlt h2
  · show (if 0.65 < t then "bullish" else if t < 0.35 then "bearish" else "neutral")
        = "neutral" ↔ (0.35 ≤ t ∧ t ≤ 0.65)
    split_ifs with h1 h2
    · constructor
      · intro hb
        exact absurd hb (by decide)
      · intro hrange
        exact absurd h1 (not_lt.mpr hrange.2)
    · constructor
      · intro hb
        exact absurd hb (by decide)
      · intro hrange
        exact absurd h2 (not_lt.mpr hrange.1)
    · rw [not_lt] at h1 h2
      simp [h1, h2]

end Futuresboard
